import Mathlib

/-!  Shallow embedding of the OTP service of this repository
(`src/services/otp.service.ts`: email one-time-password lifecycle with
send / resend / verify over a Postgres store, `src/db/schema.ts` for the
tables, `src/config/otp.ts` for the configuration), together with the
pieces of JavaScript string and number semantics the service relies on.

Timestamps are naturals (milliseconds since the epoch, as in
`Date.getTime()`), database tables are lists of rows, and the
nondeterministic `Math.random()` draws are passed in explicitly as a
stream of pre-floored naturals.  Each database write commits as it
happens (the service runs no surrounding transaction), so every
operation returns the resulting store even when it throws. -/

namespace Otp

/-- Characters removed by JavaScript `String.prototype.trim` (the ASCII
whitespace subset; the service only trims emails and submitted codes). -/
def jsWhitespace (c : Char) : Bool :=
  c == ' ' || c == '\t' || c == '\n' || c == '\r' || c == '\x0b' || c == '\x0c'

/-- Drop leading and trailing whitespace from a character list. -/
def trimChars (l : List Char) : List Char :=
  ((l.dropWhile jsWhitespace).reverse.dropWhile jsWhitespace).reverse

/-- Embedding of JavaScript `s.trim()`. -/
def jsTrim (s : String) : String := ⟨trimChars s.data⟩

/-- Embedding of JavaScript `String.prototype.toLowerCase` on one
character (ASCII range, which is all the service's tests exercise). -/
def lowerChar (c : Char) : Char :=
  if 65 ≤ c.toNat ∧ c.toNat ≤ 90 then Char.ofNat (c.toNat + 32) else c

/-- Embedding of JavaScript `s.toLowerCase()`. -/
def jsToLower (s : String) : String := ⟨s.data.map lowerChar⟩

/-- `normalizeEmail` from otp.service.ts: `email.toLowerCase().trim()`. -/
def normalizeEmail (email : String) : String := jsTrim (jsToLower email)

/-- The character of a decimal digit. -/
def digitChar (d : Nat) : Char := Char.ofNat (48 + d)

/-- Worker for `toDecimal`; the fuel argument only forces structural
termination and never runs out when it starts at `n` (see
`toDecimalGo_congr`). -/
def toDecimalGo (fuel n : Nat) : List Char :=
  match fuel with
  | 0 => [digitChar n]
  | fuel + 1 =>
    if n < 10 then [digitChar n]
    else toDecimalGo fuel (n / 10) ++ [digitChar (n % 10)]

/-- Decimal digit list of a natural number, embedding JavaScript
`Number.prototype.toString` for non-negative integers (base 10, most
significant digit first, no leading zeros). -/
def toDecimal (n : Nat) : List Char := toDecimalGo n n

/-- Embedding of JavaScript `n.toString()` for a non-negative integer. -/
def jsToString (n : Nat) : String := ⟨toDecimal n⟩

/-- Embedding of JavaScript `s.padStart(targetLength, pad)`: left-pad with
cyclic repetitions of `pad`, truncated, until `targetLength` is reached;
a string already long enough (or an empty pad) is returned unchanged. -/
def padStart (s : String) (targetLength : Nat) (pad : String) : String :=
  if targetLength ≤ s.length ∨ pad.length = 0 then s
  else ⟨((List.range (targetLength - s.length)).map
      (fun i => pad.data.getD (i % pad.length) ' ')) ++ s.data⟩

/-- `generateOTP` from otp.service.ts.  The JavaScript computes
`Math.floor(Math.random() * (max - min + 1)) + min` with `min = 10^5`
and `max = 10^6 - 1`, then `otp.toString().padStart(6, "000000")`.
Here `k` stands for the pre-floored draw
`Math.floor(Math.random() * 900000)`, which ranges over `0..899999`
exactly when `Math.random()` ranges over `[0, 1)`. -/
def generateOTP (k : Nat) : String :=
  padStart (jsToString (100000 + k)) 6 "000000"

/-- `constantTimeCompare` from otp.service.ts: reject unequal lengths,
then fold over all positions or-ing the xor of the character codes, and
compare the accumulator against zero. -/
def constantTimeCompare (a b : String) : Bool :=
  if a.length ≠ b.length then false
  else ((a.data.zip b.data).foldl (fun acc p => acc ||| (p.1.toNat ^^^ p.2.toNat)) 0) == 0

/-- `config` from src/config/otp.ts.  Every field is overridable through
the environment; the defaults are the fallback values in the source. -/
structure Config where
  OTP_EXPIRY_SECONDS : Nat := 30
  OTP_RESEND_WINDOW_MINUTES : Nat := 5
  MAX_RESEND_COUNT : Nat := 3
  MAX_OTP_REQUESTS_PER_HOUR : Nat := 3
  OTP_UNIQUENESS_WINDOW_HOURS : Nat := 24
deriving DecidableEq

/-- The configuration with all fields at their source-code defaults. -/
def config : Config := {}

/-- A row of `otp_records` (src/db/schema.ts); `id` is a counter standing
in for the random uuid primary key. -/
structure OtpRecord where
  id : Nat
  email : String
  otpCode : String
  correlationId : String
  createdAt : Nat
  expiresAt : Nat
  resendCount : Nat
  used : Bool
  invalidated : Bool
deriving DecidableEq

/-- A row of `otp_history` (src/db/schema.ts). -/
structure OtpHistoryRow where
  email : String
  otpCode : String
  correlationId : String
  createdAt : Nat
deriving DecidableEq

/-- A row of `otp_rate_limit` (src/db/schema.ts). -/
structure OtpRateLimitRow where
  email : String
  correlationId : String
  requestedAt : Nat
deriving DecidableEq

/-- The three OTP tables of the database plus the id counter that stands
in for uuid generation. -/
structure Store where
  records : List OtpRecord
  history : List OtpHistoryRow
  rateLimit : List OtpRateLimitRow
  nextId : Nat
deriving DecidableEq

/-- The database before any request. -/
def emptyStore : Store := ⟨[], [], [], 0⟩

/-- The error classes thrown by otp.service.ts (`RateLimitError`,
`OtpNotFoundError`, `OtpExpiredError`, `InvalidOtpError`,
`MaxResendExceededError`) plus the plain `Error` thrown when unique
generation exhausts its 100 attempts. -/
inductive OtpError where
  | rateLimit
  | otpNotFound
  | otpExpired
  | invalidOtp
  | maxResendExceeded
  | generationFailed
deriving DecidableEq

/-- The WHERE clause shared by `getLatestActiveOtp` and
`invalidateOldOtps`: `email = e AND used = false AND invalidated =
false`. -/
def isActive (e : String) (r : OtpRecord) : Bool :=
  r.email == e && !r.used && !r.invalidated

/-- Number of active records an identity has (the quantity the
single-active invariant of the spec bounds by one). -/
def countActive (st : Store) (e : String) : Nat :=
  (st.records.filter (isActive e)).length

/-- One step of the `ORDER BY created_at DESC LIMIT 1` selection: keep
whichever of the candidate so far and the next row was created later (on
a tie the earlier row wins, as a stable descending sort puts it first). -/
def pickLater (acc : Option OtpRecord) (r : OtpRecord) : Option OtpRecord :=
  match acc with
  | none => some r
  | some b => if b.createdAt < r.createdAt then some r else some b

/-- `ORDER BY created_at DESC LIMIT 1` over a row list. -/
def latestByCreatedAt (l : List OtpRecord) : Option OtpRecord :=
  l.foldl pickLater none

/-- `getLatestActiveOtp` from otp.service.ts. -/
def getLatestActiveOtp (st : Store) (e : String) : Option OtpRecord :=
  latestByCreatedAt (st.records.filter (isActive e))

/-- One hour in milliseconds. -/
def hourMs : Nat := 3600000

/-- The count taken by `checkRateLimit`: rate-limit rows for `e` whose
`requestedAt` is at or after `now` minus one hour (natural-number
truncation at zero matches the fact that no stored timestamp precedes
the epoch). -/
def countRecentRequests (st : Store) (e : String) (now : Nat) : Nat :=
  (st.rateLimit.filter
    (fun x => x.email == e && decide (now - hourMs ≤ x.requestedAt))).length

/-- `getUsedOtpsInWindow` from otp.service.ts: the codes in `otp_history`
for `e` with `createdAt ≥ now - windowHours` (the JavaScript builds a
`Set`; only membership is consumed, so a list of codes suffices). -/
def getUsedOtpsInWindow (st : Store) (e : String) (windowHours : Nat) (now : Nat) :
    List String :=
  ((st.history.filter
    (fun h => h.email == e && decide (now - windowHours * hourMs ≤ h.createdAt))).map
      (fun h => h.otpCode))

/-- `canResendExistingOtp` from otp.service.ts:
`new Date() < createdAt + OTP_RESEND_WINDOW_MINUTES minutes`. -/
def canResendExistingOtp (cfg : Config) (otp : OtpRecord) (now : Nat) : Bool :=
  decide (now < otp.createdAt + cfg.OTP_RESEND_WINDOW_MINUTES * 60000)

/-- `invalidateOldOtps` from otp.service.ts: `UPDATE otp_records SET
invalidated = true` on every active row of the identity. -/
def invalidateOldOtps (st : Store) (e : String) : Store :=
  let rs := st.records.map (fun r => if isActive e r then { r with invalidated := true } else r)
  { st with records := rs }

/-- The retry loop inside `generateUniqueOtp`: `i` indexes the draw
stream, the fuel starts at `maxAttempts = 100`. -/
def genGo (usedOtps : List String) (draws : Nat → Nat) : Nat → Nat → Except OtpError String
  | _, 0 => .error .generationFailed
  | i, fuel + 1 =>
    let otp := generateOTP (draws i)
    if usedOtps.contains otp then genGo usedOtps draws (i + 1) fuel else .ok otp

/-- `generateUniqueOtp` from otp.service.ts. -/
def generateUniqueOtp (cfg : Config) (st : Store) (e : String) (now : Nat)
    (draws : Nat → Nat) : Except OtpError String :=
  genGo (getUsedOtpsInWindow st e cfg.OTP_UNIQUENESS_WINDOW_HOURS now) draws 0 100

/-- `resendOtp` from otp.service.ts.  The first component is the store
after the call, the second the returned code or the thrown error. -/
def resendOtp (cfg : Config) (st : Store) (email : String) (now : Nat) :
    Store × Except OtpError String :=
  let e := normalizeEmail email
  match getLatestActiveOtp st e with
  | none => (st, .error .otpNotFound)
  | some r =>
    if !canResendExistingOtp cfg r now then (st, .error .otpExpired)
    else if cfg.MAX_RESEND_COUNT ≤ r.resendCount then (st, .error .maxResendExceeded)
    else
      let newExpiresAt := now + cfg.OTP_EXPIRY_SECONDS * 1000
      let rs := st.records.map (fun q =>
        if q.id == r.id then { q with resendCount := r.resendCount + 1, expiresAt := newExpiresAt }
        else q)
      ({ st with records := rs }, .ok r.otpCode)

/-- `verifyOtp` from otp.service.ts.  Note the supplied code is trimmed
before comparison and the expiry test is strict (`new Date() >
expiresAt`). -/
def verifyOtp (cfg : Config) (st : Store) (email otp : String) (now : Nat) :
    Store × Except OtpError Bool :=
  let e := normalizeEmail email
  let normalizedOtp := jsTrim otp
  match getLatestActiveOtp st e with
  | none => (st, .error .otpNotFound)
  | some r =>
    if r.expiresAt < now then (st, .error .otpExpired)
    else if !constantTimeCompare normalizedOtp r.otpCode then (st, .error .invalidOtp)
    else
      let rs := st.records.map (fun q => if q.id == r.id then { q with used := true } else q)
      ({ st with records := rs }, .ok true)

/-- The new-code tail of `sendOtp` (generate a unique code, invalidate
old actives, insert the record, append history).  `e` is already
normalized and the rate-limit row is already inserted into `st`, exactly
as at that point of the source. -/
def sendNewOtp (cfg : Config) (st : Store) (e correlationId : String) (now : Nat)
    (draws : Nat → Nat) : Store × Except OtpError String :=
  match generateUniqueOtp cfg st e now draws with
  | .error err => (st, .error err)
  | .ok otp =>
    let st1 := invalidateOldOtps st e
    let newRec : OtpRecord :=
      ⟨st1.nextId, e, otp, correlationId, now, now + cfg.OTP_EXPIRY_SECONDS * 1000,
        0, false, false⟩
    let st2 := { st1 with records := newRec :: st1.records, nextId := st1.nextId + 1 }
    let st3 := { st2 with history := ⟨e, otp, correlationId, now⟩ :: st2.history }
    (st3, .ok otp)

/-- `sendOtp` from otp.service.ts: rate-limit gate, rate-limit row
insert, auto-resend inside the resend window, otherwise the new-code
path. -/
def sendOtp (cfg : Config) (st : Store) (email correlationId : String) (now : Nat)
    (draws : Nat → Nat) : Store × Except OtpError String :=
  let e := normalizeEmail email
  if cfg.MAX_OTP_REQUESTS_PER_HOUR ≤ countRecentRequests st e now then
    (st, .error .rateLimit)
  else
    let st1 := { st with rateLimit := ⟨e, correlationId, now⟩ :: st.rateLimit }
    match getLatestActiveOtp st1 e with
    | some r =>
      if canResendExistingOtp cfg r now then resendOtp cfg st1 e now
      else sendNewOtp cfg st1 e correlationId now draws
    | none => sendNewOtp cfg st1 e correlationId now draws

/-- Stores reachable from the empty database by a sequential run of
`sendOtp` / `resendOtp` / `verifyOtp` calls, keeping the store component
of each result whether the call returned or threw. -/
inductive Reachable (cfg : Config) : Store → Prop where
  | empty : Reachable cfg emptyStore
  | send (st : Store) (email correlationId : String) (now : Nat) (draws : Nat → Nat) :
      Reachable cfg st → Reachable cfg (sendOtp cfg st email correlationId now draws).1
  | resend (st : Store) (email : String) (now : Nat) :
      Reachable cfg st → Reachable cfg (resendOtp cfg st email now).1
  | verify (st : Store) (email otp : String) (now : Nat) :
      Reachable cfg st → Reachable cfg (verifyOtp cfg st email otp now).1

/-- Propositional equality of operation results is decidable (used to
evaluate the theorems on concrete inputs). -/
instance exceptDecEq {ε α : Type} [DecidableEq ε] [DecidableEq α] :
    DecidableEq (Except ε α) := fun x y =>
  match x, y with
  | .ok a, .ok b =>
    if h : a = b then .isTrue (by rw [h])
    else .isFalse (by intro hh; injection hh; exact h (by assumption))
  | .error a, .error b =>
    if h : a = b then .isTrue (by rw [h])
    else .isFalse (by intro hh; injection hh; exact h (by assumption))
  | .ok _, .error _ => .isFalse (fun hh => Except.noConfusion hh)
  | .error _, .ok _ => .isFalse (fun hh => Except.noConfusion hh)

/-- Concrete fixture: one active record for `"a@x"`, created at time 0,
expiring at 30000 ms, not yet resent. -/
def rA : OtpRecord := ⟨0, "a@x", "123456", "cid", 0, 30000, 0, false, false⟩

/-- Concrete fixture store holding just `rA`. -/
def stA : Store := ⟨[rA], [], [], 1⟩

/-- Concrete fixture store with one history row (code `"100000"`) and no
records, exercising the uniqueness rejection. -/
def stH : Store := ⟨[], [⟨"a@x", "100000", "cid", 0⟩], [], 0⟩

/-! ## Decimal representation -/

lemma toDecimalGo_congr :
    ∀ (fuel₁ : Nat) {fuel₂ n : Nat}, n ≤ fuel₁ → n ≤ fuel₂ →
      toDecimalGo fuel₁ n = toDecimalGo fuel₂ n := by
  intro fuel₁
  induction fuel₁ with
  | zero =>
    intro fuel₂ n h1 _
    have hn : n = 0 := Nat.le_zero.mp h1
    subst hn
    cases fuel₂ with
    | zero => rfl
    | succ f => simp [toDecimalGo]
  | succ fuel₁ ih =>
    intro fuel₂ n h1 h2
    cases fuel₂ with
    | zero =>
      have hn : n = 0 := Nat.le_zero.mp h2
      subst hn
      simp [toDecimalGo]
    | succ f =>
      show (if n < 10 then [digitChar n] else toDecimalGo fuel₁ (n / 10) ++ [digitChar (n % 10)]) =
        (if n < 10 then [digitChar n] else toDecimalGo f (n / 10) ++ [digitChar (n % 10)])
      by_cases h : n < 10
      · rw [if_pos h, if_pos h]
      · rw [if_neg h, if_neg h]
        have hlt : n / 10 < n := Nat.div_lt_self (by omega) (by omega)
        have hrec := @ih f (n / 10) (by omega) (by omega)
        rw [hrec]

/-- The defining recursion of `toDecimal`, fuel eliminated. -/
lemma toDecimal_unfold (n : Nat) :
    toDecimal n =
      if n < 10 then [digitChar n] else toDecimal (n / 10) ++ [digitChar (n % 10)] := by
  unfold toDecimal
  rw [toDecimalGo_congr n (le_refl n) (Nat.le_succ n)]
  show (if n < 10 then [digitChar n] else toDecimalGo n (n / 10) ++ [digitChar (n % 10)]) = _
  by_cases h : n < 10
  · rw [if_pos h, if_pos h]
  · rw [if_neg h, if_neg h]
    have hlt : n / 10 < n := Nat.div_lt_self (by omega) (by omega)
    rw [toDecimalGo_congr n (by omega) (le_refl _)]

lemma toDecimal_of_lt {n : Nat} (h : n < 10) : toDecimal n = [digitChar n] := by
  rw [toDecimal_unfold, if_pos h]

lemma toDecimal_of_ge {n : Nat} (h : 10 ≤ n) :
    toDecimal n = toDecimal (n / 10) ++ [digitChar (n % 10)] := by
  rw [toDecimal_unfold, if_neg (Nat.not_lt.mpr h)]

/-- Shape of the decimal representation of `n` when `n` has `k + 1`
digits: length, leading digit, and digit-hood of every character. -/
lemma toDecimal_spec :
    ∀ (k n : Nat), 10 ^ k ≤ n → n < 10 ^ (k + 1) →
      (toDecimal n).length = k + 1 ∧
      (toDecimal n).head? = some (digitChar (n / 10 ^ k)) ∧
      ∀ c ∈ toDecimal n, ∃ d, d < 10 ∧ c = digitChar d := by
  intro k
  induction k with
  | zero =>
    intro n h1 h2
    simp only [pow_zero, pow_one] at h1 h2
    rw [toDecimal_of_lt h2]
    refine ⟨rfl, by rw [pow_zero, Nat.div_one]; rfl, ?_⟩
    intro c hc
    simp only [List.mem_singleton] at hc
    exact ⟨n, h2, hc⟩
  | succ k ih =>
    intro n h1 h2
    have h10 : 10 ≤ n := by
      calc 10 = 10 ^ 1 := (pow_one 10).symm
      _ ≤ 10 ^ (k + 1) := Nat.pow_le_pow_right (by norm_num) (by omega)
      _ ≤ n := h1
    have hd1 : 10 ^ k ≤ n / 10 := by
      rw [Nat.le_div_iff_mul_le (by norm_num)]
      calc 10 ^ k * 10 = 10 ^ (k + 1) := (pow_succ 10 k).symm
      _ ≤ n := h1
    have hd2 : n / 10 < 10 ^ (k + 1) := by
      rw [Nat.div_lt_iff_lt_mul (by norm_num)]
      calc n < 10 ^ (k + 1 + 1) := h2
      _ = 10 ^ (k + 1) * 10 := pow_succ 10 (k + 1)
    obtain ⟨hl, hh, hdig⟩ := ih (n / 10) hd1 hd2
    rw [toDecimal_of_ge h10]
    refine ⟨by simp [hl], ?_, ?_⟩
    · rw [List.head?_append]
      rw [hh]
      have : n / 10 / 10 ^ k = n / 10 ^ (k + 1) := by
        rw [Nat.div_div_eq_div_mul]
        congr 1
        rw [pow_succ]
        ring
      rw [this]
      rfl
    · intro c hc
      rcases List.mem_append.mp hc with h | h
      · exact hdig c h
      · simp only [List.mem_singleton] at h
        exact ⟨n % 10, Nat.mod_lt _ (by norm_num), h⟩

lemma length_toDecimal_six {n : Nat} (h1 : 100000 ≤ n) (h2 : n < 1000000) :
    (toDecimal n).length = 6 := by
  have := (toDecimal_spec 5 n (by norm_num [h1]) (by norm_num [h2])).1
  omega

/-- For a six-digit value the `padStart` call in `generateOTP` is inert. -/
lemma generateOTP_eq {k : Nat} (hk : k < 900000) :
    generateOTP k = jsToString (100000 + k) := by
  have h6 : (jsToString (100000 + k)).length = 6 := by
    show (toDecimal (100000 + k)).length = 6
    exact length_toDecimal_six (by omega) (by omega)
  unfold generateOTP padStart
  rw [if_pos]
  left
  omega

lemma generateOTP_data {k : Nat} (hk : k < 900000) :
    (generateOTP k).data = toDecimal (100000 + k) := by
  rw [generateOTP_eq hk]
  rfl

lemma digitChar_isDigit : ∀ d, d < 10 → (digitChar d).isDigit = true := by decide

lemma digitChar_ne_zeroChar : ∀ d, d < 10 → 1 ≤ d → digitChar d ≠ '0' := by decide

/-! ## The constant-time comparison computes string equality -/

lemma nat_or_eq_zero_iff (a b : Nat) : a ||| b = 0 ↔ a = 0 ∧ b = 0 := by
  constructor
  · intro h
    constructor
    · apply Nat.zero_of_testBit_eq_false
      intro i
      have h1 : (a ||| b).testBit i = false := by rw [h]; exact Nat.zero_testBit i
      rw [Nat.testBit_lor] at h1
      exact (Bool.or_eq_false_iff.mp h1).1
    · apply Nat.zero_of_testBit_eq_false
      intro i
      have h1 : (a ||| b).testBit i = false := by rw [h]; exact Nat.zero_testBit i
      rw [Nat.testBit_lor] at h1
      exact (Bool.or_eq_false_iff.mp h1).2
  · rintro ⟨rfl, rfl⟩
    rfl

lemma foldl_or_eq_zero {α : Type} (f : α → Nat) :
    ∀ (l : List α) (init : Nat),
      l.foldl (fun acc p => acc ||| f p) init = 0 ↔ init = 0 ∧ ∀ p ∈ l, f p = 0 := by
  intro l
  induction l with
  | nil => intro init; simp
  | cons a l ih =>
    intro init
    rw [List.foldl_cons, ih, nat_or_eq_zero_iff]
    constructor
    · rintro ⟨⟨h1, h2⟩, h3⟩
      refine ⟨h1, ?_⟩
      intro p hp
      rcases List.mem_cons.mp hp with rfl | hp
      · exact h2
      · exact h3 p hp
    · rintro ⟨h1, h2⟩
      exact ⟨⟨h1, h2 a (List.mem_cons_self a l)⟩, fun p hp => h2 p (List.mem_cons_of_mem a hp)⟩

lemma char_eq_of_toNat {c d : Char} (h : c.toNat = d.toNat) : c = d :=
  Char.ext (UInt32.toNat.inj h)

lemma eq_of_zip_eq :
    ∀ (l₁ l₂ : List Char), l₁.length = l₂.length →
      (∀ p ∈ l₁.zip l₂, p.1 = p.2) → l₁ = l₂ := by
  intro l₁
  induction l₁ with
  | nil =>
    intro l₂ h _
    cases l₂ with
    | nil => rfl
    | cons b t => simp at h
  | cons a l ih =>
    intro l₂ h hp
    cases l₂ with
    | nil => simp at h
    | cons b t =>
      have hab : a = b := hp (a, b) (by simp [List.zip_cons_cons])
      have ht : l = t := by
        apply ih t (by simpa using h)
        intro p hp'
        exact hp p (by simp [List.zip_cons_cons, hp'])
      rw [hab, ht]

lemma zip_self_eq (l : List Char) : ∀ p ∈ l.zip l, p.1 = p.2 := by
  induction l with
  | nil => intro p hp; simp at hp
  | cons a t ih =>
    intro p hp
    rw [List.zip_cons_cons] at hp
    rcases List.mem_cons.mp hp with rfl | hp
    · rfl
    · exact ih p hp

/-- `constantTimeCompare` decides exactly string equality: the or-of-xors
accumulator is zero iff every position matches, and unequal lengths are
rejected up front. -/
lemma constantTimeCompare_iff (a b : String) : constantTimeCompare a b = true ↔ a = b := by
  unfold constantTimeCompare
  by_cases hlen : a.length = b.length
  · rw [if_neg (fun h => h hlen), beq_iff_eq,
      foldl_or_eq_zero (fun p => p.1.toNat ^^^ p.2.toNat) (a.data.zip b.data) 0]
    constructor
    · rintro ⟨-, h⟩
      apply String.ext
      apply eq_of_zip_eq _ _ hlen
      intro p hp
      exact char_eq_of_toNat (Nat.xor_eq_zero.mp (h p hp))
    · rintro rfl
      refine ⟨rfl, ?_⟩
      intro p hp
      rw [zip_self_eq a.data p hp]
      exact Nat.xor_eq_zero.mpr rfl
  · rw [if_pos hlen]
    constructor
    · intro h
      exact absurd h (by simp)
    · rintro rfl
      exact absurd rfl hlen

/-! ## The latest-active lookup -/

lemma pickLater_ne_none (acc : Option OtpRecord) (r : OtpRecord) : pickLater acc r ≠ none := by
  cases acc with
  | none => simp [pickLater]
  | some b =>
    show (if b.createdAt < r.createdAt then some r else some b) ≠ none
    split <;> simp

lemma foldl_pickLater_none :
    ∀ (l : List OtpRecord) (acc : Option OtpRecord),
      l.foldl pickLater acc = none → acc = none ∧ l = [] := by
  intro l
  induction l with
  | nil => intro acc h; exact ⟨h, rfl⟩
  | cons a t ih =>
    intro acc h
    rw [List.foldl_cons] at h
    exact absurd (ih _ h).1 (pickLater_ne_none acc a)

lemma foldl_pickLater_mem :
    ∀ (l : List OtpRecord) (acc : Option OtpRecord) (r : OtpRecord),
      l.foldl pickLater acc = some r → acc = some r ∨ r ∈ l := by
  intro l
  induction l with
  | nil => intro acc r h; exact Or.inl h
  | cons a t ih =>
    intro acc r h
    rw [List.foldl_cons] at h
    rcases ih _ r h with hp | hm
    · cases acc with
      | none =>
        simp only [pickLater, Option.some.injEq] at hp
        exact Or.inr (hp ▸ List.mem_cons_self a t)
      | some b =>
        have hp' : (if b.createdAt < a.createdAt then some a else some b) = some r := hp
        split at hp'
        · injection hp' with hp'
          exact Or.inr (hp' ▸ List.mem_cons_self a t)
        · injection hp' with hp'
          exact Or.inl (by rw [hp'])
    · exact Or.inr (List.mem_cons_of_mem a hm)

lemma getLatestActiveOtp_none_iff (st : Store) (e : String) :
    getLatestActiveOtp st e = none ↔ st.records.filter (isActive e) = [] := by
  unfold getLatestActiveOtp latestByCreatedAt
  constructor
  · intro h
    exact (foldl_pickLater_none _ _ h).2
  · intro h
    rw [h]
    rfl

lemma getLatestActiveOtp_mem {st : Store} {e : String} {r : OtpRecord}
    (h : getLatestActiveOtp st e = some r) : r ∈ st.records ∧ isActive e r = true := by
  unfold getLatestActiveOtp latestByCreatedAt at h
  rcases foldl_pickLater_mem _ none r h with h' | h'
  · exact absurd h' (by simp)
  · exact ⟨(List.mem_filter.mp h').1, (List.mem_filter.mp h').2⟩

/-! ## Counting active records -/

lemma length_filter_map_eq {f : OtpRecord → OtpRecord} {p : OtpRecord → Bool}
    (hf : ∀ r, p (f r) = p r) :
    ∀ l : List OtpRecord, ((l.map f).filter p).length = (l.filter p).length := by
  intro l
  induction l with
  | nil => rfl
  | cons a t ih =>
    rw [List.map_cons, List.filter_cons, List.filter_cons, hf a]
    split <;> simp [ih]

lemma length_filter_map_le {f : OtpRecord → OtpRecord} {p : OtpRecord → Bool}
    (hf : ∀ r, p (f r) = true → p r = true) :
    ∀ l : List OtpRecord, ((l.map f).filter p).length ≤ (l.filter p).length := by
  intro l
  induction l with
  | nil => exact Nat.le_refl _
  | cons a t ih =>
    rw [List.map_cons, List.filter_cons, List.filter_cons]
    by_cases h : p (f a) = true
    · rw [if_pos h, if_pos (hf a h)]
      simpa using ih
    · rw [if_neg h]
      split
      · exact le_trans ih (by simp)
      · exact ih

lemma countActive_eq_zero_iff (st : Store) (e : String) :
    countActive st e = 0 ↔ st.records.filter (isActive e) = [] := by
  unfold countActive
  exact List.length_eq_zero

lemma getLatestActiveOtp_none_of_count {st : Store} {e : String}
    (h : countActive st e = 0) : getLatestActiveOtp st e = none :=
  (getLatestActiveOtp_none_iff st e).mpr ((countActive_eq_zero_iff st e).mp h)

/-- When at most one active record exists, the record found by the lookup
is the only active one. -/
lemma active_unique {st : Store} {e : String} {r q : OtpRecord}
    (hcount : countActive st e ≤ 1)
    (hr : getLatestActiveOtp st e = some r)
    (hq : q ∈ st.records) (hqa : isActive e q = true) : q = r := by
  have hrm := getLatestActiveOtp_mem hr
  have hrf : r ∈ st.records.filter (isActive e) := List.mem_filter.mpr ⟨hrm.1, hrm.2⟩
  have hqf : q ∈ st.records.filter (isActive e) := List.mem_filter.mpr ⟨hq, hqa⟩
  unfold countActive at hcount
  match hfl : st.records.filter (isActive e), hcount' : (st.records.filter (isActive e)).length with
  | [], _ => rw [hfl] at hrf; exact absurd hrf (by simp)
  | [x], _ =>
    rw [hfl] at hrf hqf
    simp only [List.mem_singleton] at hrf hqf
    rw [hrf, hqf]
  | x :: y :: t, _ =>
    rw [hfl] at hcount
    simp at hcount

/-! ## Case analyses of the operations -/

lemma isActive_email {e : String} {r : OtpRecord} (h : isActive e r = true) : r.email = e := by
  unfold isActive at h
  simp only [Bool.and_eq_true] at h
  exact beq_iff_eq.mp h.1.1

lemma isActive_flags {e : String} {r : OtpRecord} (h : isActive e r = true) :
    r.used = false ∧ r.invalidated = false := by
  unfold isActive at h
  simp only [Bool.and_eq_true, Bool.not_eq_true'] at h
  exact ⟨h.1.2, h.2⟩

lemma resendOtp_notFound {cfg : Config} {st : Store} {email : String} {now : Nat}
    (h : getLatestActiveOtp st (normalizeEmail email) = none) :
    resendOtp cfg st email now = (st, .error .otpNotFound) := by
  simp only [resendOtp, h]

lemma resendOtp_expired {cfg : Config} {st : Store} {email : String} {now : Nat}
    {r : OtpRecord}
    (h : getLatestActiveOtp st (normalizeEmail email) = some r)
    (hw : ¬ now < r.createdAt + cfg.OTP_RESEND_WINDOW_MINUTES * 60000) :
    resendOtp cfg st email now = (st, .error .otpExpired) := by
  simp only [resendOtp, h, canResendExistingOtp, decide_eq_false hw, Bool.not_false, if_true]

lemma resendOtp_maxed {cfg : Config} {st : Store} {email : String} {now : Nat}
    {r : OtpRecord}
    (h : getLatestActiveOtp st (normalizeEmail email) = some r)
    (hw : now < r.createdAt + cfg.OTP_RESEND_WINDOW_MINUTES * 60000)
    (hc : cfg.MAX_RESEND_COUNT ≤ r.resendCount) :
    resendOtp cfg st email now = (st, .error .maxResendExceeded) := by
  simp only [resendOtp, h, canResendExistingOtp, decide_eq_true_eq, hw, decide_True,
    Bool.not_true, Bool.false_eq_true, if_false, if_pos hc]

lemma resendOtp_ok {cfg : Config} {st : Store} {email : String} {now : Nat}
    {r : OtpRecord}
    (h : getLatestActiveOtp st (normalizeEmail email) = some r)
    (hw : now < r.createdAt + cfg.OTP_RESEND_WINDOW_MINUTES * 60000)
    (hc : r.resendCount < cfg.MAX_RESEND_COUNT) :
    resendOtp cfg st email now =
      ({ st with records := st.records.map (fun q =>
          if q.id == r.id then
            { q with resendCount := r.resendCount + 1,
                     expiresAt := now + cfg.OTP_EXPIRY_SECONDS * 1000 }
          else q) },
       .ok r.otpCode) := by
  simp only [resendOtp, h, canResendExistingOtp, hw, decide_True, Bool.not_true,
    Bool.false_eq_true, if_false, if_neg (Nat.not_le.mpr hc)]

lemma countActive_resendOtp (cfg : Config) (st : Store) (email : String) (now : Nat)
    (e' : String) :
    countActive (resendOtp cfg st email now).1 e' = countActive st e' := by
  cases h : getLatestActiveOtp st (normalizeEmail email) with
  | none => rw [resendOtp_notFound h]
  | some r =>
    by_cases hw : now < r.createdAt + cfg.OTP_RESEND_WINDOW_MINUTES * 60000
    · by_cases hc : r.resendCount < cfg.MAX_RESEND_COUNT
      · rw [resendOtp_ok h hw hc]
        unfold countActive
        apply length_filter_map_eq
        intro q
        dsimp only
        split <;> rfl
      · rw [resendOtp_maxed h hw (Nat.not_lt.mp hc)]
    · rw [resendOtp_expired h hw]

lemma verifyOtp_notFound {cfg : Config} {st : Store} {email otp : String} {now : Nat}
    (h : getLatestActiveOtp st (normalizeEmail email) = none) :
    verifyOtp cfg st email otp now = (st, .error .otpNotFound) := by
  simp only [verifyOtp, h]

lemma verifyOtp_expired {cfg : Config} {st : Store} {email otp : String} {now : Nat}
    {r : OtpRecord}
    (h : getLatestActiveOtp st (normalizeEmail email) = some r)
    (hx : r.expiresAt < now) :
    verifyOtp cfg st email otp now = (st, .error .otpExpired) := by
  simp only [verifyOtp, h, if_pos hx]

lemma verifyOtp_mismatch {cfg : Config} {st : Store} {email otp : String} {now : Nat}
    {r : OtpRecord}
    (h : getLatestActiveOtp st (normalizeEmail email) = some r)
    (hx : ¬ r.expiresAt < now)
    (hm : jsTrim otp ≠ r.otpCode) :
    verifyOtp cfg st email otp now = (st, .error .invalidOtp) := by
  have hcmp : constantTimeCompare (jsTrim otp) r.otpCode = false := by
    rcases hb : constantTimeCompare (jsTrim otp) r.otpCode with _ | _
    · rfl
    · exact absurd ((constantTimeCompare_iff _ _).mp hb) hm
  simp only [verifyOtp, h, if_neg hx, hcmp, Bool.not_false, if_true]

lemma verifyOtp_ok {cfg : Config} {st : Store} {email otp : String} {now : Nat}
    {r : OtpRecord}
    (h : getLatestActiveOtp st (normalizeEmail email) = some r)
    (hx : ¬ r.expiresAt < now)
    (hm : jsTrim otp = r.otpCode) :
    verifyOtp cfg st email otp now =
      ({ st with records := st.records.map (fun q => if q.id == r.id then { q with used := true } else q) },
       .ok true) := by
  have hcmp : constantTimeCompare (jsTrim otp) r.otpCode = true :=
    (constantTimeCompare_iff _ _).mpr hm
  simp only [verifyOtp, h, if_neg hx, hcmp, Bool.not_true, Bool.false_eq_true, if_false]

lemma countActive_verifyOtp (cfg : Config) (st : Store) (email otp : String) (now : Nat)
    (e' : String) :
    countActive (verifyOtp cfg st email otp now).1 e' ≤ countActive st e' := by
  cases h : getLatestActiveOtp st (normalizeEmail email) with
  | none => rw [verifyOtp_notFound h]
  | some r =>
    by_cases hx : r.expiresAt < now
    · rw [verifyOtp_expired h hx]
    · by_cases hm : jsTrim otp = r.otpCode
      · rw [verifyOtp_ok h hx hm]
        unfold countActive
        apply length_filter_map_le
        intro q hq
        split at hq
        · exfalso
          unfold isActive at hq
          simp at hq
        · exact hq
      · rw [verifyOtp_mismatch h hx hm]

lemma filter_eq_nil_of_all {p : OtpRecord → Bool} :
    ∀ l : List OtpRecord, (∀ r ∈ l, p r = false) → l.filter p = [] := by
  intro l
  induction l with
  | nil => intro _; rfl
  | cons a t ih =>
    intro h
    rw [List.filter_cons, if_neg]
    · exact ih (fun r hr => h r (List.mem_cons_of_mem a hr))
    · simp [h a (List.mem_cons_self a t)]

/-- After `invalidateOldOtps` no record of the identity is active. -/
lemma countActive_invalidateOldOtps_self (st : Store) (e : String) :
    countActive (invalidateOldOtps st e) e = 0 := by
  unfold countActive invalidateOldOtps
  rw [List.length_eq_zero]
  apply filter_eq_nil_of_all
  intro q hq
  rcases List.mem_map.mp hq with ⟨q0, _, rfl⟩
  by_cases h : isActive e q0 = true
  · rw [if_pos h]
    unfold isActive
    simp
  · rw [if_neg h]
    simpa using h

/-- `invalidateOldOtps` for one identity leaves every other identity's
active count unchanged. -/
lemma countActive_invalidateOldOtps_other (st : Store) {e e' : String} (hne : e' ≠ e) :
    countActive (invalidateOldOtps st e) e' = countActive st e' := by
  unfold countActive invalidateOldOtps
  apply length_filter_map_eq
  intro q
  by_cases h : isActive e q = true
  · rw [if_pos h]
    have hm : q.email = e := isActive_email h
    have hb : (q.email == e') = false := by
      rcases hbe : q.email == e' with _ | _
      · rfl
      · exact absurd (beq_iff_eq.mp hbe) (by rw [hm]; exact Ne.symm hne)
    unfold isActive
    simp [hb]
  · rw [if_neg h]

lemma sendNewOtp_err {cfg : Config} {st : Store} {e cid : String} {now : Nat}
    {draws : Nat → Nat} {err : OtpError}
    (hg : generateUniqueOtp cfg st e now draws = .error err) :
    sendNewOtp cfg st e cid now draws = (st, .error err) := by
  unfold sendNewOtp
  rw [hg]

lemma sendNewOtp_ok {cfg : Config} {st : Store} {e cid : String} {now : Nat}
    {draws : Nat → Nat} {otp : String}
    (hg : generateUniqueOtp cfg st e now draws = .ok otp) :
    sendNewOtp cfg st e cid now draws =
      ({ records := (⟨st.nextId, e, otp, cid, now, now + cfg.OTP_EXPIRY_SECONDS * 1000, 0, false, false⟩ : OtpRecord) :: (invalidateOldOtps st e).records,
         history := ⟨e, otp, cid, now⟩ :: st.history,
         rateLimit := st.rateLimit,
         nextId := st.nextId + 1 }, .ok otp) := by
  unfold sendNewOtp
  rw [hg]
  rfl

lemma countActive_sendNewOtp {cfg : Config} {st : Store} {e cid : String} {now : Nat}
    {draws : Nat → Nat}
    (h : ∀ e'', countActive st e'' ≤ 1) :
    ∀ e', countActive (sendNewOtp cfg st e cid now draws).1 e' ≤ 1 := by
  intro e'
  cases hg : generateUniqueOtp cfg st e now draws with
  | error err =>
    rw [sendNewOtp_err hg]
    exact h e'
  | ok otp =>
    rw [sendNewOtp_ok hg]
    show (((⟨st.nextId, e, otp, cid, now, now + cfg.OTP_EXPIRY_SECONDS * 1000, 0, false, false⟩ : OtpRecord) :: (invalidateOldOtps st e).records).filter (isActive e')).length ≤ 1
    rw [List.filter_cons]
    by_cases he : e' = e
    · subst he
      have hz : ((invalidateOldOtps st e').records.filter (isActive e')).length = 0 :=
        countActive_invalidateOldOtps_self st e'
      split
      · simp [hz]
      · simp [hz]
    · have hb : isActive e' (⟨st.nextId, e, otp, cid, now, now + cfg.OTP_EXPIRY_SECONDS * 1000, 0, false, false⟩ : OtpRecord) = false := by
        unfold isActive
        have : (e == e') = false := by
          rcases hbe : e == e' with _ | _
          · rfl
          · exact absurd (beq_iff_eq.mp hbe) (fun hh => he (hh.symm))
        simp [this]
      rw [if_neg (by simp [hb])]
      calc ((invalidateOldOtps st e).records.filter (isActive e')).length
          = countActive st e' := countActive_invalidateOldOtps_other st he
      _ ≤ 1 := h e'

lemma sendOtp_rateLimited {cfg : Config} {st : Store} {email cid : String} {now : Nat}
    {draws : Nat → Nat}
    (h : cfg.MAX_OTP_REQUESTS_PER_HOUR ≤ countRecentRequests st (normalizeEmail email) now) :
    sendOtp cfg st email cid now draws = (st, .error .rateLimit) := by
  simp only [sendOtp, if_pos h]

lemma sendOtp_resend {cfg : Config} {st : Store} {email cid : String} {now : Nat}
    {draws : Nat → Nat} {r : OtpRecord}
    (hrl : countRecentRequests st (normalizeEmail email) now < cfg.MAX_OTP_REQUESTS_PER_HOUR)
    (hr : getLatestActiveOtp st (normalizeEmail email) = some r)
    (hw : canResendExistingOtp cfg r now = true) :
    sendOtp cfg st email cid now draws =
      resendOtp cfg { st with rateLimit := ⟨normalizeEmail email, cid, now⟩ :: st.rateLimit } (normalizeEmail email) now := by
  have hr1 : getLatestActiveOtp { st with rateLimit := (⟨normalizeEmail email, cid, now⟩ : OtpRateLimitRow) :: st.rateLimit } (normalizeEmail email) = some r := hr
  simp only [sendOtp, if_neg (Nat.not_le.mpr hrl), hr1, hw, if_true]

lemma sendOtp_new {cfg : Config} {st : Store} {email cid : String} {now : Nat}
    {draws : Nat → Nat}
    (hrl : countRecentRequests st (normalizeEmail email) now < cfg.MAX_OTP_REQUESTS_PER_HOUR)
    (hcase : getLatestActiveOtp st (normalizeEmail email) = none ∨
      ∃ r, getLatestActiveOtp st (normalizeEmail email) = some r ∧
        canResendExistingOtp cfg r now = false) :
    sendOtp cfg st email cid now draws =
      sendNewOtp cfg { st with rateLimit := ⟨normalizeEmail email, cid, now⟩ :: st.rateLimit } (normalizeEmail email) cid now draws := by
  rcases hcase with hne | ⟨r, hr, hw⟩
  · have h1 : getLatestActiveOtp { st with rateLimit := (⟨normalizeEmail email, cid, now⟩ : OtpRateLimitRow) :: st.rateLimit } (normalizeEmail email) = none := hne
    simp only [sendOtp, if_neg (Nat.not_le.mpr hrl), h1]
  · have h1 : getLatestActiveOtp { st with rateLimit := (⟨normalizeEmail email, cid, now⟩ : OtpRateLimitRow) :: st.rateLimit } (normalizeEmail email) = some r := hr
    simp only [sendOtp, if_neg (Nat.not_le.mpr hrl), h1, hw, Bool.false_eq_true, if_false]

lemma countActive_sendOtp {cfg : Config} {st : Store} {email cid : String} {now : Nat}
    {draws : Nat → Nat}
    (h : ∀ e'', countActive st e'' ≤ 1) :
    ∀ e', countActive (sendOtp cfg st email cid now draws).1 e' ≤ 1 := by
  intro e'
  by_cases hrl : cfg.MAX_OTP_REQUESTS_PER_HOUR ≤ countRecentRequests st (normalizeEmail email) now
  · rw [sendOtp_rateLimited hrl]
    exact h e'
  · have hrl' := Nat.not_le.mp hrl
    have hst1 : ∀ e'', countActive { st with rateLimit := (⟨normalizeEmail email, cid, now⟩ : OtpRateLimitRow) :: st.rateLimit } e'' ≤ 1 := h
    cases hr : getLatestActiveOtp st (normalizeEmail email) with
    | none =>
      rw [sendOtp_new hrl' (Or.inl hr)]
      exact countActive_sendNewOtp hst1 e'
    | some r =>
      cases hw : canResendExistingOtp cfg r now with
      | false =>
        rw [sendOtp_new hrl' (Or.inr ⟨r, hr, hw⟩)]
        exact countActive_sendNewOtp hst1 e'
      | true =>
        rw [sendOtp_resend hrl' hr hw]
        rw [countActive_resendOtp]
        exact hst1 e'

/-- The single-active invariant holds in every reachable store. -/
lemma reachable_single_active {cfg : Config} {st : Store} (h : Reachable cfg st) :
    ∀ e, countActive st e ≤ 1 := by
  induction h with
  | empty => intro e; show (0 : Nat) ≤ 1; omega
  | send st email cid now draws _ ih => exact countActive_sendOtp ih
  | resend st email now _ ih =>
    intro e
    rw [countActive_resendOtp]
    exact ih e
  | verify st email otp now _ ih =>
    intro e
    exact le_trans (countActive_verifyOtp cfg st email otp now e) (ih e)

/-! ## Normalization is idempotent -/

lemma char_toNat_ofNat {n : Nat} (h : n.isValidChar) : (Char.ofNat n).toNat = n := by
  unfold Char.ofNat
  rw [dif_pos h]
  rfl

lemma lowerChar_toNat (c : Char) (h : 65 ≤ c.toNat ∧ c.toNat ≤ 90) :
    (lowerChar c).toNat = c.toNat + 32 := by
  unfold lowerChar
  rw [if_pos h]
  exact char_toNat_ofNat (Or.inl (by have := h.2; omega))

lemma lowerChar_eq_self (c : Char) (h : ¬ (65 ≤ c.toNat ∧ c.toNat ≤ 90)) :
    lowerChar c = c := by
  unfold lowerChar
  rw [if_neg h]

lemma lowerChar_idem (c : Char) : lowerChar (lowerChar c) = lowerChar c := by
  by_cases h : 65 ≤ c.toNat ∧ c.toNat ≤ 90
  · apply lowerChar_eq_self
    rw [lowerChar_toNat c h]
    omega
  · rw [lowerChar_eq_self c h]
    exact lowerChar_eq_self c h

lemma map_eq_self_of_mem {l : List Char} (h : ∀ c ∈ l, lowerChar c = c) :
    l.map lowerChar = l := by
  induction l with
  | nil => rfl
  | cons a t ih =>
    rw [List.map_cons, h a (List.mem_cons_self a t),
      ih (fun c hc => h c (List.mem_cons_of_mem a hc))]

lemma mem_trimChars {c : Char} {l : List Char} (h : c ∈ trimChars l) : c ∈ l := by
  unfold trimChars at h
  rw [List.mem_reverse] at h
  have h1 := (List.dropWhile_sublist jsWhitespace).subset h
  rw [List.mem_reverse] at h1
  exact (List.dropWhile_sublist jsWhitespace).subset h1

lemma dropWhile_head_not {p : Char → Bool} :
    ∀ (l : List Char) {a : Char} {t : List Char},
      l.dropWhile p = a :: t → p a = false := by
  intro l
  induction l with
  | nil =>
    intro a t h
    simp at h
  | cons b l ih =>
    intro a t h
    rw [List.dropWhile_cons] at h
    split at h
    · exact ih h
    · rename_i hb
      injection h with h1 _
      subst h1
      simpa using hb

lemma dropWhile_idem (p : Char → Bool) (l : List Char) :
    (l.dropWhile p).dropWhile p = l.dropWhile p := by
  cases hd : l.dropWhile p with
  | nil => rfl
  | cons a t =>
    rw [List.dropWhile_cons, if_neg]
    simp [dropWhile_head_not l hd]

lemma isPrefix_head {l₁ l₂ : List Char} (h : l₁ <+: l₂) {a : Char} {t : List Char}
    (he : l₁ = a :: t) : ∃ t', l₂ = a :: t' := by
  rcases h with ⟨s, hs⟩
  exact ⟨t ++ s, by rw [← hs, he]; rfl⟩

lemma rdrop_prefix (u : List Char) :
    ((u.reverse.dropWhile jsWhitespace).reverse) <+: u := by
  obtain ⟨t, ht⟩ := List.dropWhile_suffix (l := u.reverse) jsWhitespace
  refine ⟨t.reverse, ?_⟩
  have h2 := congrArg List.reverse ht
  rw [List.reverse_append] at h2
  simpa using h2

lemma trimChars_dropWhile (l : List Char) :
    (trimChars l).dropWhile jsWhitespace = trimChars l := by
  cases hd : trimChars l with
  | nil => rfl
  | cons a t =>
    rw [List.dropWhile_cons, if_neg]
    have hpre : trimChars l <+: l.dropWhile jsWhitespace :=
      rdrop_prefix (l.dropWhile jsWhitespace)
    obtain ⟨t', ht'⟩ := isPrefix_head hpre hd
    simp [dropWhile_head_not l ht']

lemma trimChars_idem (l : List Char) : trimChars (trimChars l) = trimChars l := by
  show (((trimChars l).dropWhile jsWhitespace).reverse.dropWhile jsWhitespace).reverse = trimChars l
  rw [trimChars_dropWhile l]
  have h1 : (trimChars l).reverse = (l.dropWhile jsWhitespace).reverse.dropWhile jsWhitespace := by
    unfold trimChars
    rw [List.reverse_reverse]
  rw [h1, dropWhile_idem, ← h1, List.reverse_reverse]

/-- Normalizing an already-normalized email changes nothing (needed
because `sendOtp` hands an already-normalized email to `resendOtp`, which
normalizes again). -/
lemma normalizeEmail_idem (s : String) :
    normalizeEmail (normalizeEmail s) = normalizeEmail s := by
  unfold normalizeEmail jsTrim jsToLower
  apply String.ext
  show trimChars ((trimChars (s.data.map lowerChar)).map lowerChar) =
    trimChars (s.data.map lowerChar)
  have hmap : (trimChars (s.data.map lowerChar)).map lowerChar =
      trimChars (s.data.map lowerChar) := by
    apply map_eq_self_of_mem
    intro c hc
    rcases List.mem_map.mp (mem_trimChars hc) with ⟨a, -, rfl⟩
    exact lowerChar_idem a
  rw [hmap, trimChars_idem]

/-! ## Freshness of the unique generator -/

lemma genGo_not_used {usedOtps : List String} {draws : Nat → Nat} :
    ∀ (fuel i : Nat) {otp : String},
      genGo usedOtps draws i fuel = .ok otp → usedOtps.contains otp = false := by
  intro fuel
  induction fuel with
  | zero =>
    intro i otp h
    exact absurd h (by simp [genGo])
  | succ fuel ih =>
    intro i otp h
    rw [genGo] at h
    split at h
    · exact ih (i + 1) h
    · rename_i hc
      injection h with h1
      rw [← h1]
      simpa using hc

/-- A code returned by `generateUniqueOtp` differs from every history
code of the identity inside the uniqueness window. -/
lemma generateUniqueOtp_fresh {cfg : Config} {st : Store} {e : String} {now : Nat}
    {draws : Nat → Nat} {otp : String}
    (h : generateUniqueOtp cfg st e now draws = .ok otp) :
    ∀ hrow ∈ st.history, hrow.email = e →
      now - cfg.OTP_UNIQUENESS_WINDOW_HOURS * hourMs ≤ hrow.createdAt →
      hrow.otpCode ≠ otp := by
  intro hrow hmem hemail hwin heq
  have hc : (getUsedOtpsInWindow st e cfg.OTP_UNIQUENESS_WINDOW_HOURS now).contains otp = false :=
    genGo_not_used 100 0 h
  have hmem' : otp ∈ getUsedOtpsInWindow st e cfg.OTP_UNIQUENESS_WINDOW_HOURS now := by
    unfold getUsedOtpsInWindow
    apply List.mem_map.mpr
    refine ⟨hrow, ?_, heq⟩
    apply List.mem_filter.mpr
    refine ⟨hmem, ?_⟩
    simp [hemail, hwin]
  have hct : (getUsedOtpsInWindow st e cfg.OTP_UNIQUENESS_WINDOW_HOURS now).contains otp = true := by
    simpa [List.contains] using List.elem_iff.mpr hmem'
  rw [hct] at hc
  simp at hc

/-! ## Rate-limit table frame facts -/

lemma resendOtp_rateLimit_frame (cfg : Config) (st : Store) (email : String) (now : Nat) :
    (resendOtp cfg st email now).1.rateLimit = st.rateLimit := by
  cases h : getLatestActiveOtp st (normalizeEmail email) with
  | none => rw [resendOtp_notFound h]
  | some r =>
    by_cases hw : now < r.createdAt + cfg.OTP_RESEND_WINDOW_MINUTES * 60000
    · by_cases hcnt : r.resendCount < cfg.MAX_RESEND_COUNT
      · rw [resendOtp_ok h hw hcnt]
      · rw [resendOtp_maxed h hw (Nat.not_lt.mp hcnt)]
    · rw [resendOtp_expired h hw]

lemma resendOtp_history_frame (cfg : Config) (st : Store) (email : String) (now : Nat) :
    (resendOtp cfg st email now).1.history = st.history := by
  cases h : getLatestActiveOtp st (normalizeEmail email) with
  | none => rw [resendOtp_notFound h]
  | some r =>
    by_cases hw : now < r.createdAt + cfg.OTP_RESEND_WINDOW_MINUTES * 60000
    · by_cases hcnt : r.resendCount < cfg.MAX_RESEND_COUNT
      · rw [resendOtp_ok h hw hcnt]
      · rw [resendOtp_maxed h hw (Nat.not_lt.mp hcnt)]
    · rw [resendOtp_expired h hw]

lemma sendNewOtp_rateLimit_frame (cfg : Config) (st : Store) (e cid : String) (now : Nat)
    (draws : Nat → Nat) :
    (sendNewOtp cfg st e cid now draws).1.rateLimit = st.rateLimit := by
  cases hg : generateUniqueOtp cfg st e now draws with
  | error err => rw [sendNewOtp_err hg]
  | ok otp => rw [sendNewOtp_ok hg]

/-! ## Claim theorems -/

/-- C2, counterexample: the claim asserts that some possible random draw
yields a generated code beginning with the digit '0' (candidate space
`"000000"`–`"999999"`).  In the code the draw is
`Math.floor(Math.random() * 900000) + 100000`, so no draw can produce a
leading '0': the negation of the claimed existential holds over the whole
draw space `0..899999`. -/
theorem claim2_counterexample :
    ¬ ∃ k, k < 900000 ∧ (generateOTP k).data.head? = some '0' := by
  rintro ⟨k, hk, h⟩
  have h5 : (10 : Nat) ^ 5 = 100000 := by norm_num
  have h6 : (10 : Nat) ^ (5 + 1) = 1000000 := by norm_num
  obtain ⟨-, hhead, -⟩ := toDecimal_spec 5 (100000 + k) (by omega) (by omega)
  rw [generateOTP_data hk, hhead] at h
  injection h with h
  have hq1 : 1 ≤ (100000 + k) / 10 ^ 5 := by
    rw [h5, Nat.le_div_iff_mul_le (by norm_num)]
    omega
  have hq2 : (100000 + k) / 10 ^ 5 < 10 := by
    rw [h5, Nat.div_lt_iff_lt_mul (by norm_num)]
    omega
  exact digitChar_ne_zeroChar _ hq2 hq1 h

/-- C2, amended: every candidate the generator can produce is a
6-character all-digit string encoding a value in `100000..999999` with no
leading zero; no possible draw begins with '0' (the `padStart` call is
inert). -/
theorem claim2_generated_code_shape (k : Nat) (hk : k < 900000) :
    (generateOTP k).length = 6 ∧
    (∀ c ∈ (generateOTP k).data, c.isDigit = true) ∧
    (∀ c, (generateOTP k).data.head? = some c → c ≠ '0') ∧
    ∃ n, 100000 ≤ n ∧ n ≤ 999999 ∧ generateOTP k = jsToString n := by
  have h5 : (10 : Nat) ^ 5 = 100000 := by norm_num
  have h6 : (10 : Nat) ^ (5 + 1) = 1000000 := by norm_num
  obtain ⟨hlen, hhead, hdig⟩ := toDecimal_spec 5 (100000 + k) (by omega) (by omega)
  refine ⟨?_, ?_, ?_, 100000 + k, by omega, by omega, generateOTP_eq hk⟩
  · rw [generateOTP_eq hk]
    show (toDecimal (100000 + k)).length = 6
    rw [hlen]
  · intro c hc
    rw [generateOTP_data hk] at hc
    obtain ⟨d, hd, rfl⟩ := hdig c hc
    exact digitChar_isDigit d hd
  · intro c hc
    rw [generateOTP_data hk, hhead] at hc
    injection hc with hc
    subst hc
    have hq1 : 1 ≤ (100000 + k) / 10 ^ 5 := by
      rw [h5, Nat.le_div_iff_mul_le (by norm_num)]
      omega
    have hq2 : (100000 + k) / 10 ^ 5 < 10 := by
      rw [h5, Nat.div_lt_iff_lt_mul (by norm_num)]
      omega
    exact digitChar_ne_zeroChar _ hq2 hq1

/-- C2, witness: the amended claim evaluated at the draw `k = 0`, whose
code is `"100000"`. -/
theorem claim2_generated_code_shape_witness :
    (generateOTP 0).length = 6 ∧
    (∀ c ∈ (generateOTP 0).data, c.isDigit = true) ∧
    (∀ c, (generateOTP 0).data.head? = some c → c ≠ '0') ∧
    ∃ n, 100000 ≤ n ∧ n ≤ 999999 ∧ generateOTP 0 = jsToString n :=
  claim2_generated_code_shape 0 (by norm_num)

/-- C5, counterexample: the claim says verify fails with `OtpExpired`
exactly when `now ≥ expiresAt`, in particular at the boundary instant
`now = expiresAt`.  The code tests `new Date() > expiresAt` strictly: on
the fixture record expiring at 30000, a verify at `now = 30000` with the
correct code succeeds instead of reporting `OtpExpired`. -/
theorem claim5_counterexample :
    (verifyOtp config stA "a@x" "123456" 30000).2 = .ok true ∧
    ¬ (verifyOtp config stA "a@x" "123456" 30000).2 = .error .otpExpired := by
  constructor
  · rfl
  · intro h
    rw [show (verifyOtp config stA "a@x" "123456" 30000).2 = .ok true from rfl] at h
    exact Except.noConfusion h

/-- C5, amended: for an identity with an active record, verify fails with
`OtpExpired` exactly when `now > expiresAt` (strictly); at the boundary
instant `now = expiresAt` it proceeds to the code comparison. -/
theorem claim5_expiry_boundary (cfg : Config) (st : Store) (email otp : String)
    (now : Nat) (r : OtpRecord)
    (hr : getLatestActiveOtp st (normalizeEmail email) = some r) :
    ((verifyOtp cfg st email otp now).2 = .error .otpExpired ↔ r.expiresAt < now) := by
  constructor
  · intro h
    by_contra hx
    by_cases hm : jsTrim otp = r.otpCode
    · rw [verifyOtp_ok hr hx hm] at h
      simp at h
    · rw [verifyOtp_mismatch hr hx hm] at h
      simp at h
  · intro hx
    rw [verifyOtp_expired hr hx]

/-- C5, witness: the amended claim on the fixture store, at a time past
expiry. -/
theorem claim5_expiry_boundary_witness :
    ((verifyOtp config stA "a@x" "123456" 40000).2 = .error .otpExpired ↔
      rA.expiresAt < 40000) :=
  claim5_expiry_boundary config stA "a@x" "123456" 40000 rA (by decide)

/-- C9, counterexample: the claim says a supplied code that does not
equal the stored code fails with `InvalidOtp`.  The code trims the
supplied string first, so the supplied code `"123456 "` (trailing blank),
which is not equal to the stored `"123456"`, verifies successfully. -/
theorem claim9_counterexample :
    (verifyOtp config stA "a@x" "123456 " 0).2 = .ok true ∧ "123456 " ≠ "123456" := by
  exact ⟨rfl, by decide⟩

/-- C9, amended: for an active unexpired record, a supplied code whose
trimmed form differs from the stored code fails with `InvalidOtp` and
leaves the whole store (hence the record) unchanged; the comparison is an
equal-length full scan that returns true iff the strings are equal and
short-circuits only on unequal lengths. -/
theorem claim9_invalid_code (cfg : Config) (st : Store) (email otp : String)
    (now : Nat) (r : OtpRecord)
    (hr : getLatestActiveOtp st (normalizeEmail email) = some r)
    (hx : ¬ r.expiresAt < now)
    (hm : jsTrim otp ≠ r.otpCode) :
    verifyOtp cfg st email otp now = (st, .error .invalidOtp) ∧
    (∀ a b : String, constantTimeCompare a b = true ↔ a = b) ∧
    (∀ a b : String, a.length ≠ b.length → constantTimeCompare a b = false) :=
  ⟨verifyOtp_mismatch hr hx hm, constantTimeCompare_iff,
    fun a b h => by unfold constantTimeCompare; rw [if_pos h]⟩

/-- C9, witness: the amended claim on the fixture store with a wrong
code. -/
theorem claim9_invalid_code_witness :
    verifyOtp config stA "a@x" "999999" 0 = (stA, .error .invalidOtp) ∧
    (∀ a b : String, constantTimeCompare a b = true ↔ a = b) ∧
    (∀ a b : String, a.length ≠ b.length → constantTimeCompare a b = false) :=
  claim9_invalid_code config stA "a@x" "999999" 0 rA (by decide) (by decide) (by decide)

/-- C10: `verifyOtp` never returns `false` — on every input it either
throws `OtpNotFound`, `OtpExpired` or `InvalidOtp`, or returns `true`. -/
theorem claim10_verify_never_false (cfg : Config) (st : Store) (email otp : String)
    (now : Nat) :
    (verifyOtp cfg st email otp now).2 = .ok true ∨
    (verifyOtp cfg st email otp now).2 = .error .otpNotFound ∨
    (verifyOtp cfg st email otp now).2 = .error .otpExpired ∨
    (verifyOtp cfg st email otp now).2 = .error .invalidOtp := by
  cases h : getLatestActiveOtp st (normalizeEmail email) with
  | none =>
    rw [verifyOtp_notFound h]
    exact Or.inr (Or.inl rfl)
  | some r =>
    by_cases hx : r.expiresAt < now
    · rw [verifyOtp_expired h hx]
      exact Or.inr (Or.inr (Or.inl rfl))
    · by_cases hm : jsTrim otp = r.otpCode
      · rw [verifyOtp_ok h hx hm]
        exact Or.inl rfl
      · rw [verifyOtp_mismatch h hx hm]
        exact Or.inr (Or.inr (Or.inr rfl))

/-- C1: in every store reachable from the empty database by a sequential
run of send, resend and verify, every identity has at most one active
(`used = false`, `invalidated = false`) record: send's new-code path
invalidates all existing actives before inserting one new record, resend
only rewrites `expiresAt`/`resendCount`, and verify only flips `used`. -/
theorem claim1_single_active (cfg : Config) (st : Store) (h : Reachable cfg st)
    (e : String) : countActive st e ≤ 1 :=
  reachable_single_active h e

/-- C1, witness: the invariant evaluated on the concrete reachable store
obtained by one send from the empty database. -/
theorem claim1_single_active_witness :
    countActive (sendOtp config emptyStore "a@x" "cid" 0 (fun _ => 0)).1 "a@x" ≤ 1 :=
  claim1_single_active config _
    (Reachable.send emptyStore "a@x" "cid" 0 (fun _ => 0) Reachable.empty) "a@x"

/-- C3: for an identity whose single active record `r` is unexpired,
verifying with the stored code succeeds, flips `used` on that record, and
leaves the identity with no active record, so every subsequent verify
(with any code, at any time, no intervening send) fails with
`OtpNotFound` and changes nothing. -/
theorem claim3_verify_single_use (cfg : Config) (st : Store) (email : String)
    (now : Nat) (r : OtpRecord)
    (hinv : countActive st (normalizeEmail email) ≤ 1)
    (hr : getLatestActiveOtp st (normalizeEmail email) = some r)
    (hexp : ¬ r.expiresAt < now)
    (htrim : jsTrim r.otpCode = r.otpCode) :
    (verifyOtp cfg st email r.otpCode now).2 = .ok true ∧
    (∀ q ∈ (verifyOtp cfg st email r.otpCode now).1.records, q.id = r.id → q.used = true) ∧
    countActive (verifyOtp cfg st email r.otpCode now).1 (normalizeEmail email) = 0 ∧
    ∀ otp' now', verifyOtp cfg (verifyOtp cfg st email r.otpCode now).1 email otp' now' =
      ((verifyOtp cfg st email r.otpCode now).1, .error .otpNotFound) := by
  have hv := @verifyOtp_ok cfg st email r.otpCode now r hr hexp htrim
  have hzero : countActive
      { st with records := st.records.map (fun q => if q.id == r.id then { q with used := true } else q) }
      (normalizeEmail email) = 0 := by
    unfold countActive
    rw [List.length_eq_zero]
    apply filter_eq_nil_of_all
    intro q hq
    rcases List.mem_map.mp hq with ⟨q0, hq0, rfl⟩
    by_cases hb : (q0.id == r.id) = true
    · rw [if_pos hb]
      unfold isActive
      simp
    · rw [if_neg hb]
      rcases hact : isActive (normalizeEmail email) q0 with _ | _
      · rfl
      · exact absurd (beq_iff_eq.mpr (by rw [active_unique hinv hr hq0 hact])) hb
  refine ⟨by rw [hv], ?_, ?_, ?_⟩
  · rw [hv]
    intro q hq hid
    rcases List.mem_map.mp hq with ⟨q0, hq0, rfl⟩
    by_cases hb : (q0.id == r.id) = true
    · rw [if_pos hb]
    · rw [if_neg hb] at hid
      exact absurd (beq_iff_eq.mpr hid) hb
  · rw [hv]
    exact hzero
  · intro otp' now'
    rw [hv]
    exact verifyOtp_notFound (getLatestActiveOtp_none_of_count hzero)

/-- C3, witness: the single-use property on the fixture store, verifying
`rA`'s code at time 10 and re-verifying at time 20. -/
theorem claim3_verify_single_use_witness :
    (verifyOtp config stA "a@x" rA.otpCode 10).2 = .ok true ∧
    (∀ q ∈ (verifyOtp config stA "a@x" rA.otpCode 10).1.records, q.id = rA.id → q.used = true) ∧
    countActive (verifyOtp config stA "a@x" rA.otpCode 10).1 (normalizeEmail "a@x") = 0 ∧
    ∀ otp' now', verifyOtp config (verifyOtp config stA "a@x" rA.otpCode 10).1 "a@x" otp' now' =
      ((verifyOtp config stA "a@x" rA.otpCode 10).1, .error .otpNotFound) :=
  claim3_verify_single_use config stA "a@x" 10 rA (by decide) (by decide) (by decide)
    (by decide)

/-- C4: `resendOtp` fails with `OtpNotFound` when no active record
exists; otherwise with `OtpExpired` when `now ≥ createdAt + resend
window` (even if the resend quota is also exhausted); otherwise with
`MaxResendExceeded` when `resendCount ≥ MAX_RESEND_COUNT`; and otherwise
sets `expiresAt = now + OTP_EXPIRY_SECONDS`, increments `resendCount`,
returns the same code, and adds no record, no history row and no
rate-limit row — the checks applying in exactly that order. -/
theorem claim4_resend_order (cfg : Config) (st : Store) (email : String) (now : Nat) :
    (getLatestActiveOtp st (normalizeEmail email) = none →
      resendOtp cfg st email now = (st, .error .otpNotFound)) ∧
    (∀ r, getLatestActiveOtp st (normalizeEmail email) = some r →
      r.createdAt + cfg.OTP_RESEND_WINDOW_MINUTES * 60000 ≤ now →
      resendOtp cfg st email now = (st, .error .otpExpired)) ∧
    (∀ r, getLatestActiveOtp st (normalizeEmail email) = some r →
      now < r.createdAt + cfg.OTP_RESEND_WINDOW_MINUTES * 60000 →
      cfg.MAX_RESEND_COUNT ≤ r.resendCount →
      resendOtp cfg st email now = (st, .error .maxResendExceeded)) ∧
    (∀ r, getLatestActiveOtp st (normalizeEmail email) = some r →
      now < r.createdAt + cfg.OTP_RESEND_WINDOW_MINUTES * 60000 →
      r.resendCount < cfg.MAX_RESEND_COUNT →
      (resendOtp cfg st email now).2 = .ok r.otpCode ∧
      (resendOtp cfg st email now).1.history = st.history ∧
      (resendOtp cfg st email now).1.rateLimit = st.rateLimit ∧
      (resendOtp cfg st email now).1.records.length = st.records.length ∧
      (resendOtp cfg st email now).1.records = st.records.map (fun q =>
        if q.id == r.id then
          { q with resendCount := r.resendCount + 1,
                   expiresAt := now + cfg.OTP_EXPIRY_SECONDS * 1000 }
        else q)) := by
  refine ⟨?_, ?_, ?_, ?_⟩
  · intro h
    exact resendOtp_notFound h
  · intro r hr hw
    exact resendOtp_expired hr (Nat.not_lt.mpr hw)
  · intro r hr hw hc
    exact resendOtp_maxed hr hw hc
  · intro r hr hw hc
    rw [resendOtp_ok hr hw hc]
    exact ⟨rfl, rfl, rfl, List.length_map _ _, rfl⟩

/-- C4, witness: the ordered-checks statement evaluated on the fixture
store at time 1000. -/
theorem claim4_resend_order_witness :
    (getLatestActiveOtp stA (normalizeEmail "a@x") = none →
      resendOtp config stA "a@x" 1000 = (stA, .error .otpNotFound)) ∧
    (∀ r, getLatestActiveOtp stA (normalizeEmail "a@x") = some r →
      r.createdAt + config.OTP_RESEND_WINDOW_MINUTES * 60000 ≤ 1000 →
      resendOtp config stA "a@x" 1000 = (stA, .error .otpExpired)) ∧
    (∀ r, getLatestActiveOtp stA (normalizeEmail "a@x") = some r →
      1000 < r.createdAt + config.OTP_RESEND_WINDOW_MINUTES * 60000 →
      config.MAX_RESEND_COUNT ≤ r.resendCount →
      resendOtp config stA "a@x" 1000 = (stA, .error .maxResendExceeded)) ∧
    (∀ r, getLatestActiveOtp stA (normalizeEmail "a@x") = some r →
      1000 < r.createdAt + config.OTP_RESEND_WINDOW_MINUTES * 60000 →
      r.resendCount < config.MAX_RESEND_COUNT →
      (resendOtp config stA "a@x" 1000).2 = .ok r.otpCode ∧
      (resendOtp config stA "a@x" 1000).1.history = stA.history ∧
      (resendOtp config stA "a@x" 1000).1.rateLimit = stA.rateLimit ∧
      (resendOtp config stA "a@x" 1000).1.records.length = stA.records.length ∧
      (resendOtp config stA "a@x" 1000).1.records = stA.records.map (fun q =>
        if q.id == r.id then
          { q with resendCount := r.resendCount + 1,
                   expiresAt := 1000 + config.OTP_EXPIRY_SECONDS * 1000 }
        else q)) :=
  claim4_resend_order config stA "a@x" 1000

/-- C6: a send issued while an active record `r` is inside its resend
window (and under the rate and resend quotas) returns `r`'s own code,
creates no record (the table is only rewritten in place with the
incremented `resendCount` and extended `expiresAt`), keeps the active
count unchanged, and appends no history row — send delegates to resend
semantics. -/
theorem claim6_send_within_window (cfg : Config) (st : Store) (email cid : String)
    (now : Nat) (draws : Nat → Nat) (r : OtpRecord)
    (hrl : countRecentRequests st (normalizeEmail email) now < cfg.MAX_OTP_REQUESTS_PER_HOUR)
    (hr : getLatestActiveOtp st (normalizeEmail email) = some r)
    (hw : now < r.createdAt + cfg.OTP_RESEND_WINDOW_MINUTES * 60000)
    (hc : r.resendCount < cfg.MAX_RESEND_COUNT) :
    (sendOtp cfg st email cid now draws).2 = .ok r.otpCode ∧
    (sendOtp cfg st email cid now draws).1.records = st.records.map (fun q =>
      if q.id == r.id then
        { q with resendCount := r.resendCount + 1,
                 expiresAt := now + cfg.OTP_EXPIRY_SECONDS * 1000 }
      else q) ∧
    (sendOtp cfg st email cid now draws).1.records.length = st.records.length ∧
    countActive (sendOtp cfg st email cid now draws).1 (normalizeEmail email) =
      countActive st (normalizeEmail email) ∧
    (sendOtp cfg st email cid now draws).1.history = st.history := by
  have hw' : canResendExistingOtp cfg r now = true := by
    unfold canResendExistingOtp
    exact decide_eq_true hw
  rw [sendOtp_resend hrl hr hw']
  have hr1 : getLatestActiveOtp
      { st with rateLimit := (⟨normalizeEmail email, cid, now⟩ : OtpRateLimitRow) :: st.rateLimit }
      (normalizeEmail (normalizeEmail email)) = some r := by
    rw [normalizeEmail_idem]
    exact hr
  rw [resendOtp_ok hr1 hw hc]
  refine ⟨rfl, rfl, List.length_map _ _, ?_, rfl⟩
  unfold countActive
  apply length_filter_map_eq
  intro q
  dsimp only
  split <;> rfl

/-- C6, witness: a second send on the fixture store one second after the
first returns the stored code `"123456"` as a resend. -/
theorem claim6_send_within_window_witness :
    (sendOtp config stA "a@x" "cid2" 1000 (fun _ => 0)).2 = .ok rA.otpCode ∧
    (sendOtp config stA "a@x" "cid2" 1000 (fun _ => 0)).1.records = stA.records.map (fun q =>
      if q.id == rA.id then
        { q with resendCount := rA.resendCount + 1,
                 expiresAt := 1000 + config.OTP_EXPIRY_SECONDS * 1000 }
      else q) ∧
    (sendOtp config stA "a@x" "cid2" 1000 (fun _ => 0)).1.records.length = stA.records.length ∧
    countActive (sendOtp config stA "a@x" "cid2" 1000 (fun _ => 0)).1 (normalizeEmail "a@x") =
      countActive stA (normalizeEmail "a@x") ∧
    (sendOtp config stA "a@x" "cid2" 1000 (fun _ => 0)).1.history = stA.history :=
  claim6_send_within_window config stA "a@x" "cid2" 1000 (fun _ => 0) rA
    (by decide) (by decide) (by decide) (by decide)

/-- C7: a send under the hourly ceiling prepends exactly one rate-limit
row stamped with the current time — also when it internally behaves as a
resend; a rate-limited send writes nothing and throws; an explicit resend
never touches the rate-limit table. -/
theorem claim7_rate_limit_rows (cfg : Config) (st : Store) (email cid : String)
    (now : Nat) (draws : Nat → Nat) :
    (countRecentRequests st (normalizeEmail email) now < cfg.MAX_OTP_REQUESTS_PER_HOUR →
      (sendOtp cfg st email cid now draws).1.rateLimit =
        (⟨normalizeEmail email, cid, now⟩ : OtpRateLimitRow) :: st.rateLimit) ∧
    (cfg.MAX_OTP_REQUESTS_PER_HOUR ≤ countRecentRequests st (normalizeEmail email) now →
      (sendOtp cfg st email cid now draws).1.rateLimit = st.rateLimit ∧
      (sendOtp cfg st email cid now draws).2 = .error .rateLimit) ∧
    (∀ email' now', (resendOtp cfg st email' now').1.rateLimit = st.rateLimit) := by
  refine ⟨?_, ?_, ?_⟩
  · intro hrl
    cases hr : getLatestActiveOtp st (normalizeEmail email) with
    | none =>
      rw [sendOtp_new hrl (Or.inl hr), sendNewOtp_rateLimit_frame]
    | some r =>
      cases hw : canResendExistingOtp cfg r now with
      | false =>
        rw [sendOtp_new hrl (Or.inr ⟨r, hr, hw⟩), sendNewOtp_rateLimit_frame]
      | true =>
        rw [sendOtp_resend hrl hr hw, resendOtp_rateLimit_frame]
  · intro hrl
    rw [sendOtp_rateLimited hrl]
    exact ⟨rfl, rfl⟩
  · intro email' now'
    exact resendOtp_rateLimit_frame cfg st email' now'

/-- C7, witness: the accounting statement evaluated on the fixture store
at time 1000 (a send that internally resends). -/
theorem claim7_rate_limit_rows_witness :
    (countRecentRequests stA (normalizeEmail "a@x") 1000 < config.MAX_OTP_REQUESTS_PER_HOUR →
      (sendOtp config stA "a@x" "cid2" 1000 (fun _ => 0)).1.rateLimit =
        (⟨normalizeEmail "a@x", "cid2", 1000⟩ : OtpRateLimitRow) :: stA.rateLimit) ∧
    (config.MAX_OTP_REQUESTS_PER_HOUR ≤ countRecentRequests stA (normalizeEmail "a@x") 1000 →
      (sendOtp config stA "a@x" "cid2" 1000 (fun _ => 0)).1.rateLimit = stA.rateLimit ∧
      (sendOtp config stA "a@x" "cid2" 1000 (fun _ => 0)).2 = .error .rateLimit) ∧
    (∀ email' now', (resendOtp config stA email' now').1.rateLimit = stA.rateLimit) :=
  claim7_rate_limit_rows config stA "a@x" "cid2" 1000 (fun _ => 0)

/-- C8: a code returned by the unique-code generator differs from every
code recorded for the identity in the history table with `createdAt`
inside the preceding uniqueness window — codes cannot repeat within the
window. -/
theorem claim8_unique_within_window (cfg : Config) (st : Store) (e : String)
    (now : Nat) (draws : Nat → Nat) (otp : String)
    (h : generateUniqueOtp cfg st e now draws = .ok otp) :
    ∀ hrow ∈ st.history, hrow.email = e →
      now - cfg.OTP_UNIQUENESS_WINDOW_HOURS * hourMs ≤ hrow.createdAt →
      hrow.otpCode ≠ otp :=
  generateUniqueOtp_fresh h

/-- C8, witness: on the fixture history containing `"100000"` (a row
inside the window), a draw stream whose first candidate collides yields
the fresh `"100007"`, which differs from that history code. -/
theorem claim8_unique_within_window_witness :
    (⟨"a@x", "100000", "cid", 0⟩ : OtpHistoryRow).otpCode ≠ "100007" :=
  claim8_unique_within_window config stH "a@x" 1000 (fun i => if i == 0 then 0 else 7)
    "100007" (by decide) ⟨"a@x", "100000", "cid", 0⟩ (by decide) (by decide) (by decide)

end Otp
